import Mathlib

/-!
Verification development for the Trajectory-Explorer repository.

The source is a TypeScript application measuring traffic-flow quantities
from time-space trajectory diagrams.  We shallowly embed the geometry
kernel (src/utils/geometry.ts), the raster trajectory extractor and the
mode handlers of the measurement engine (src/services/imageProcessor.ts
and the application click handler) over exact rational arithmetic, and
prove the specified properties about those definitions.

JavaScript numbers are IEEE doubles; we model them as rationals, so every
arithmetic identity below is exact.  Division by zero in the source would
produce Infinity/NaN; in the embedding rational division by zero yields 0.
All the guards of the source (`area > 0 ? ttd / area : 0` and so on) are
embedded literally, so no theorem below depends on that convention except
where explicitly noted.
-/

namespace TrajectoryExplorer

/-- Domain point: `x` is time in minutes, `y` is position in meters
(src/types.ts, interface Point). -/
structure Point where
  x : ℚ
  y : ℚ
deriving DecidableEq, Repr

/-- Physical extent represented by the raster image (src/types.ts,
interface Extent). -/
structure Extent where
  spatial : ℚ
  temporal : ℚ
deriving DecidableEq, Repr

/-- One extracted vehicle path (src/types.ts, interface Trajectory). -/
structure Trajectory where
  id : ℕ
  points : List Point
deriving DecidableEq, Repr

/-- The four analysis modes (src/types.ts, enum AnalysisMode). -/
inductive AnalysisMode where
  | LINE
  | POLYGON
  | PLATOON
  | LOOP_DETECTOR
deriving DecidableEq, Repr

/-- One measurement record (src/types.ts, interface AnalysisResult):
flow in veh/min, density in veh/m, speed in m/min; `count` and
`waveSpeed` are only populated by Line mode. -/
structure AnalysisResult where
  mode : AnalysisMode
  flow : ℚ
  density : ℚ
  speed : ℚ
  area : ℚ
  ttd : ℚ
  ttt : ℚ
  count : Option ℕ
  waveSpeed : Option ℚ
  experimentId : ℕ
deriving DecidableEq, Repr

/-- Geometric shape rendered for a result (src/types.ts, interface
AnalysisVisual, including the optional anchor marker used by Platoon). -/
structure AnalysisVisual where
  mode : AnalysisMode
  points : List Point
  intersections : Option (List Point)
  anchor : Option Point
deriving DecidableEq, Repr

/-! ## Geometry kernel (src/utils/geometry.ts) -/

/-- Ray casting: edge list pairing vertex `i` with vertex `(i-1) mod n`
(the loop in the source runs `j = polygon.length - 1; j = i++`), so the
partner list is the polygon rotated by `n - 1`. -/
def edgePairs (polygon : List Point) : List (Point × Point) :=
  polygon.zip (polygon.rotate (polygon.length - 1))

/-- Even-odd point-in-polygon test (isPointInPolygon in the source).  The
division `(point.y - yi) / (yj - yi)` is guarded by the strict `&&`:
the crossing test only evaluates it when `yi > point.y` and `yj > point.y`
disagree, which forces `yj ≠ yi`. -/
def isPointInPolygon (point : Point) (polygon : List Point) : Bool :=
  (edgePairs polygon).foldl
    (fun inside e =>
      let pi := e.1
      let pj := e.2
      if ((decide (pi.y > point.y)) != (decide (pj.y > point.y))) &&
          decide (point.x < (pj.x - pi.x) * (point.y - pi.y) / (pj.y - pi.y) + pi.x)
      then !inside else inside)
    false

/-- Cross-product denominator of getLineIntersection. -/
def interDenom (p1 p2 p3 p4 : Point) : ℚ :=
  (p4.y - p3.y) * (p2.x - p1.x) - (p4.x - p3.x) * (p2.y - p1.y)

/-- Numerator of the parameter `ua` of getLineIntersection. -/
def interNumA (p1 _p2 p3 p4 : Point) : ℚ :=
  (p4.x - p3.x) * (p1.y - p3.y) - (p4.y - p3.y) * (p1.x - p3.x)

/-- Numerator of the parameter `ub` of getLineIntersection. -/
def interNumB (p1 p2 p3 _p4 : Point) : ℚ :=
  (p2.x - p1.x) * (p1.y - p3.y) - (p2.y - p1.y) * (p1.x - p3.x)

/-- Segment-segment intersection (getLineIntersection in the source):
solves the 2x2 system; `none` on zero denominator or a parameter outside
`[0, 1]`. -/
def getLineIntersection (p1 p2 p3 p4 : Point) : Option Point :=
  let denom := interDenom p1 p2 p3 p4
  if denom = 0 then none
  else
    let ua := interNumA p1 p2 p3 p4 / denom
    let ub := interNumB p1 p2 p3 p4 / denom
    if 0 ≤ ua ∧ ua ≤ 1 ∧ 0 ≤ ub ∧ ub ≤ 1 then
      some ⟨p1.x + ua * (p2.x - p1.x), p1.y + ua * (p2.y - p1.y)⟩
    else none

/-- Segment versus infinite line `y = m x + c` (getSegmentLineIntersection
in the source), with the source's 1e-9 tolerances. -/
def getSegmentLineIntersection (p1 p2 : Point) (m c : ℚ) : Option Point :=
  if |p2.x - p1.x| < 1 / 1000000000 then
    let yIntersect := m * p1.x + c
    if min p1.y p2.y ≤ yIntersect ∧ yIntersect ≤ max p1.y p2.y then
      some ⟨p1.x, yIntersect⟩
    else none
  else
    let ms := (p2.y - p1.y) / (p2.x - p1.x)
    if |m - ms| < 1 / 1000000000 then none
    else
      let x := (p1.y - ms * p1.x - c) / (m - ms)
      let y := m * x + c
      if min p1.x p2.x - 1 / 1000000000 ≤ x ∧
          x ≤ max p1.x p2.x + 1 / 1000000000 then
        some ⟨x, y⟩
      else none

/-- Signed cross term of the shoelace sum. -/
def cross (p q : Point) : ℚ :=
  p.x * q.y - q.x * p.y

/-- Shoelace sum: the source loop pairs vertex `i` with vertex
`(i+1) mod n`, i.e. the polygon zipped with its rotation by one. -/
def shoelace (polygon : List Point) : ℚ :=
  ((polygon.zip (polygon.rotate 1)).map fun e => cross e.1 e.2).sum

/-- Polygon area (calculatePolygonArea in the source): half the absolute
shoelace sum. -/
def calculatePolygonArea (polygon : List Point) : ℚ :=
  |shoelace polygon| / 2

/-- One sub-interval contribution of getClippedSegmentMetrics: the segment
is sampled at 10 sub-intervals; a sub-interval contributes its |dy| and
|dx| when its midpoint lies inside the polygon. -/
def clippedSample (p1 p2 : Point) (polygon : List Point) (i : ℕ) : ℚ × ℚ :=
  let s : Point := ⟨p1.x + (p2.x - p1.x) * (i / 10), p1.y + (p2.y - p1.y) * (i / 10)⟩
  let e : Point := ⟨p1.x + (p2.x - p1.x) * ((i + 1) / 10), p1.y + (p2.y - p1.y) * ((i + 1) / 10)⟩
  let mid : Point := ⟨(s.x + e.x) / 2, (s.y + e.y) / 2⟩
  if isPointInPolygon mid polygon then (|e.y - s.y|, |e.x - s.x|) else (0, 0)

/-- Sampled clipping of a trajectory segment to a polygon
(getClippedSegmentMetrics in the source); returns (ttd, ttt).  The source
also computes two unused point-membership flags for `p1` and `p2`, which
have no effect and are omitted. -/
def getClippedSegmentMetrics (p1 p2 : Point) (polygon : List Point) : ℚ × ℚ :=
  (List.range 10).foldl
    (fun acc i =>
      let m := clippedSample p1 p2 polygon i
      (acc.1 + m.1, acc.2 + m.2))
    (0, 0)

/-! ## Application state and the four mode handlers (current App component) -/

/-- The slice of application state touched by the measurement engine:
result list, visual list, trajectory set and the in-progress click
buffer. -/
structure AppState where
  results : List AnalysisResult
  visuals : List AnalysisVisual
  trajectories : List Trajectory
  drawingPoints : List Point
deriving DecidableEq, Repr

/-- Consecutive point pairs of a trajectory, i.e. its segments (the
source iterates `i` from 0 to `points.length - 2` over
`(points[i], points[i+1])`). -/
def segPairs (t : Trajectory) : List (Point × Point) :=
  t.points.zip t.points.tail

/-- All intersection points of the drawn line `p1p2` with every
trajectory segment, in source traversal order (the LINE branch's
`intersects` array). -/
def lineIntersections (trajectories : List Trajectory) (p1 p2 : Point) : List Point :=
  trajectories.flatMap fun t =>
    (segPairs t).filterMap fun e => getLineIntersection p1 p2 e.1 e.2

/-- Specification-level crossing count: the number of trajectory segments
whose intersection test with the drawn line succeeds. -/
def countCrossings (trajectories : List Trajectory) (p1 p2 : Point) : ℕ :=
  (trajectories.map fun t =>
    ((segPairs t).filter fun e => (getLineIntersection p1 p2 e.1 e.2).isSome).length).sum

/-- Edie result record shared by the Polygon, Loop-Detector and Platoon
branches (each branch of the source inlines these identical guarded
formulas: `area > 0 ? ttd / area : 0` etc.). -/
def mkEdieResult (mode : AnalysisMode) (area ttd ttt : ℚ) (experimentId : ℕ) :
    AnalysisResult where
  mode := mode
  flow := if area > 0 then ttd / area else 0
  density := if area > 0 then ttt / area else 0
  speed := if ttt > 0 then ttd / ttt else 0
  area := area
  ttd := ttd
  ttt := ttt
  count := none
  waveSpeed := none
  experimentId := experimentId

/-- Accumulation of clipped metrics over every segment of every
trajectory, mirroring the nested `forEach`/`for` loops of the source;
returns (ttd, ttt). -/
def accumulateMetrics (trajectories : List Trajectory) (polygon : List Point) : ℚ × ℚ :=
  trajectories.foldl
    (fun acc t =>
      (segPairs t).foldl
        (fun acc2 e =>
          let m := getClippedSegmentMetrics e.1 e.2 polygon
          (acc2.1 + m.1, acc2.2 + m.2))
        acc)
    (0, 0)

/-- Specification-level TTD: sum of per-segment clipped travel
distances. -/
def sumTTD (trajectories : List Trajectory) (polygon : List Point) : ℚ :=
  (trajectories.map fun t =>
    ((segPairs t).map fun e => (getClippedSegmentMetrics e.1 e.2 polygon).1).sum).sum

/-- Specification-level TTT: sum of per-segment clipped travel times. -/
def sumTTT (trajectories : List Trajectory) (polygon : List Point) : ℚ :=
  (trajectories.map fun t =>
    ((segPairs t).map fun e => (getClippedSegmentMetrics e.1 e.2 polygon).2).sum).sum

/-- LINE branch of handleCanvasClick: on the second point it records the
slope, every trajectory crossing, a relative flow `count/Δt` (zero when
`Δt ≤ 0.01` min) and a relative density `count/Δx` (zero when
`Δx ≤ 1` m), then clears the click buffer; on the first point it only
extends the buffer. -/
def handleLineClick (s : AppState) (worldPoint : Point) (experimentId : ℕ) : AppState :=
  let newPoints := s.drawingPoints ++ [worldPoint]
  match newPoints with
  | [p1, p2] =>
    let slope := (p2.y - p1.y) / (p2.x - p1.x)
    let intersects := lineIntersections s.trajectories p1 p2
    let dt := |p2.x - p1.x|
    let dx := |p2.y - p1.y|
    let count := intersects.length
    let flow := if dt > 1 / 100 then (count : ℚ) / dt else 0
    let density := if dx > 1 then (count : ℚ) / dx else 0
    { s with
      results := s.results ++
        [⟨AnalysisMode.LINE, flow, density, 0, 0, 0, 0, some count, some slope, experimentId⟩],
      visuals := s.visuals ++ [⟨AnalysisMode.LINE, [p1, p2], some intersects, none⟩],
      drawingPoints := [] }
  | _ => { s with drawingPoints := newPoints }

/-- POLYGON branch of handleCanvasClick: on the fourth point it computes
the shoelace area and the sampled Edie metrics over every trajectory
segment, appends one result and one visual, and clears the click
buffer. -/
def handlePolygonClick (s : AppState) (worldPoint : Point) (experimentId : ℕ) : AppState :=
  let newPoints := s.drawingPoints ++ [worldPoint]
  match newPoints with
  | [a, b, c, d] =>
    let poly := [a, b, c, d]
    let area := calculatePolygonArea poly
    let m := accumulateMetrics s.trajectories poly
    { s with
      results := s.results ++ [mkEdieResult AnalysisMode.POLYGON area m.1 m.2 experimentId],
      visuals := s.visuals ++ [⟨AnalysisMode.POLYGON, poly, none, none⟩],
      drawingPoints := [] }
  | _ => { s with drawingPoints := newPoints }

/-- Wave-speed-corrected parallelogram of one loop-detector window
starting at time `t` (the `poly` built inside the LOOP_DETECTOR
branch): `calcY time off = waveSpeed * (time - t_center) + y0 + off`
with `t_center = t + interval / 2`. -/
def loopPoly (waveSpeed y0 t interval h : ℚ) : List Point :=
  let tCenter := t + interval / 2
  let calcY := fun (time off : ℚ) => waveSpeed * (time - tCenter) + y0 + off
  [⟨t, calcY t (-(h / 2))⟩,
   ⟨t + interval, calcY (t + interval) (-(h / 2))⟩,
   ⟨t + interval, calcY (t + interval) (h / 2)⟩,
   ⟨t, calcY t (h / 2)⟩]

/-- Start times visited by the loop-detector window loop
`for (t = 0; t < endT; t += interval)`: exactly `k * interval` for every
natural `k` with `k * interval < endT`.  For `interval ≤ 0` (with
`endT > 0`) the source loop would never terminate; the spec requires a
positive window duration, and the embedding returns the empty list
there. -/
def loopWindowStarts (interval endT : ℚ) : List ℚ :=
  if 0 < interval then (List.range ⌈endT / interval⌉₊).map fun k => (k : ℚ) * interval
  else []

/-- LOOP_DETECTOR branch of handleCanvasClick: one Edie result and one
polygon visual per time window, all sharing the one experiment id. -/
def handleLoopDetectorClick (s : AppState) (worldPoint : Point) (experimentId : ℕ)
    (waveSpeed interval h endT : ℚ) : AppState :=
  let starts := loopWindowStarts interval endT
  let newResults := starts.map fun t =>
    let poly := loopPoly waveSpeed worldPoint.y t interval h
    let m := accumulateMetrics s.trajectories poly
    mkEdieResult AnalysisMode.LOOP_DETECTOR (calculatePolygonArea poly) m.1 m.2 experimentId
  let newVisuals := starts.map fun t =>
    (⟨AnalysisMode.POLYGON, loopPoly waveSpeed worldPoint.y t interval h, none, none⟩ :
      AnalysisVisual)
  { s with results := s.results ++ newResults, visuals := s.visuals ++ newVisuals }

/-! ## Platoon mode -/

/-- Linear interpolation of a trajectory's position at time `t`
(getYAtTime in the source): first segment whose time range covers `t`,
with a 1e-4 tolerance against a vanishing time span. -/
def getYAtTime (traj : Trajectory) (t : ℚ) : Option ℚ :=
  (segPairs traj).findSome? fun e =>
    if e.1.x ≤ t ∧ t ≤ e.2.x then
      let frac := if |e.2.x - e.1.x| < 1 / 10000 then 0 else (t - e.1.x) / (e.2.x - e.1.x)
      some (e.1.y + frac * (e.2.y - e.1.y))
    else none

/-- First intersection of a trajectory with the infinite line
`y = m x + c` (getTrajectoryIntersectionWithLine in the source). -/
def getTrajectoryIntersectionWithLine (traj : Trajectory) (m c : ℚ) : Option Point :=
  (segPairs traj).findSome? fun e => getSegmentLineIntersection e.1 e.2 m c

/-- Intersections of every trajectory with the cut line `y = m x + c`,
kept when they fall inside the x-range spanned by `startP`-`endP` with
the source's 1e-4 slack (the `collectIntersections` closure of the
PLATOON branch). -/
def collectIntersections (trajectories : List Trajectory) (m c : ℚ)
    (startP endP : Point) : List Point :=
  let minX := min startP.x endP.x
  let maxX := max startP.x endP.x
  trajectories.filterMap fun t =>
    (getTrajectoryIntersectionWithLine t m c).bind fun pt =>
      if minX - 1 / 10000 ≤ pt.x ∧ pt.x ≤ maxX + 1 / 10000 then some pt else none

/-- The PLATOON stepping loop (`while (true)` in the source).  One
iteration: stop if the lower cut already exceeds the spatial extent at
both ends of the time axis; intersect the cut pair with the first and
last platoon member, stopping if any of the four corners is missing;
emit one Edie result and one visual; then advance the intercept by `h`
and stop once the incremented step counter exceeds 100.  The counter is
the source's own termination guarantee and is the decreasing measure
here. -/
def platoonLoop (trajectories : List Trajectory) (first last : Trajectory)
    (waveSpeed h : ℚ) (extent : Extent) (experimentId : ℕ) (anchorPoint : Point)
    (stepCount : ℕ) (currentIntercept : ℚ) :
    List AnalysisResult × List AnalysisVisual :=
  let c1 := currentIntercept
  let c2 := currentIntercept + h
  if waveSpeed * 0 + c1 > extent.spatial ∧
      waveSpeed * extent.temporal + c1 > extent.spatial then ([], [])
  else
    match getTrajectoryIntersectionWithLine first waveSpeed c1,
        getTrajectoryIntersectionWithLine last waveSpeed c1,
        getTrajectoryIntersectionWithLine last waveSpeed c2,
        getTrajectoryIntersectionWithLine first waveSpeed c2 with
    | some p1Traj1, some p1TrajN, some p2TrajN, some p2Traj1 =>
      let poly := [p1Traj1, p1TrajN, p2TrajN, p2Traj1]
      let m := accumulateMetrics trajectories poly
      let res := mkEdieResult AnalysisMode.PLATOON (calculatePolygonArea poly) m.1 m.2
        experimentId
      let cutIntersections :=
        collectIntersections trajectories waveSpeed c1 p1Traj1 p1TrajN ++
        collectIntersections trajectories waveSpeed c2 p2Traj1 p2TrajN
      let vis : AnalysisVisual :=
        ⟨AnalysisMode.POLYGON, poly, some cutIntersections,
          if stepCount = 0 then some anchorPoint else none⟩
      if _hCap : stepCount + 1 > 100 then ([res], [vis])
      else
        let rest := platoonLoop trajectories first last waveSpeed h extent experimentId
          anchorPoint (stepCount + 1) (currentIntercept + h)
        (res :: rest.1, vis :: rest.2)
    | _, _, _, _ => ([], [])
termination_by 101 - stepCount
decreasing_by simp_wf; omega

/-- Structural companion of `platoonLoop`: the same loop body, with the
quantity `101 - stepCount` (strictly decreasing because of the source's
step cap) passed as an explicit structural argument so that the kernel
can evaluate it.  `platoonLoop_eq_aux` proves the two agree on every
reachable step count; the fuel-zero arm is unreachable from them. -/
def platoonLoopAux (trajectories : List Trajectory) (first last : Trajectory)
    (waveSpeed h : ℚ) (extent : Extent) (experimentId : ℕ) (anchorPoint : Point) :
    ℕ → ℕ → ℚ → List AnalysisResult × List AnalysisVisual
  | 0, _, _ => ([], [])
  | fuel + 1, stepCount, currentIntercept =>
    let c1 := currentIntercept
    let c2 := currentIntercept + h
    if waveSpeed * 0 + c1 > extent.spatial ∧
        waveSpeed * extent.temporal + c1 > extent.spatial then ([], [])
    else
      match getTrajectoryIntersectionWithLine first waveSpeed c1,
          getTrajectoryIntersectionWithLine last waveSpeed c1,
          getTrajectoryIntersectionWithLine last waveSpeed c2,
          getTrajectoryIntersectionWithLine first waveSpeed c2 with
      | some p1Traj1, some p1TrajN, some p2TrajN, some p2Traj1 =>
        let poly := [p1Traj1, p1TrajN, p2TrajN, p2Traj1]
        let m := accumulateMetrics trajectories poly
        let res := mkEdieResult AnalysisMode.PLATOON (calculatePolygonArea poly) m.1 m.2
          experimentId
        let cutIntersections :=
          collectIntersections trajectories waveSpeed c1 p1Traj1 p1TrajN ++
          collectIntersections trajectories waveSpeed c2 p2Traj1 p2TrajN
        let vis : AnalysisVisual :=
          ⟨AnalysisMode.POLYGON, poly, some cutIntersections,
            if stepCount = 0 then some anchorPoint else none⟩
        if stepCount + 1 > 100 then ([res], [vis])
        else
          let rest := platoonLoopAux trajectories first last waveSpeed h extent
            experimentId anchorPoint fuel (stepCount + 1) (currentIntercept + h)
          (res :: rest.1, vis :: rest.2)
      | _, _, _, _ => ([], [])

/-- Trajectories active at the reference time, paired with their
interpolated position there (the `activeNeighbors` array before
sorting). -/
def activeNeighbors (trajectories : List Trajectory) (tRef : ℚ) :
    List (Trajectory × ℚ) :=
  trajectories.filterMap fun t => (getYAtTime t tRef).map fun y => (t, y)

/-- PLATOON branch of handleCanvasClick, taken after the anchor search.
The source first locates the clicked trajectory by minimum point-to-
segment Euclidean distance in pixel space (an irrational-arithmetic
search); its outcome is passed in here as `anchorTraj`/`anchorPoint`.
Active trajectories are sorted by position at the anchor time (the
source's stable ascending `sort`); if the anchor is absent from that
list or fewer than two trajectories are active, the handler logs and
returns with the state untouched; otherwise the stepping loop's results
and visuals are appended.  An empty platoon slice (only possible for
`platoonN = 0`, which would fault in the source) also leaves the state
unchanged. -/
def platoonBranch (s : AppState) (anchorTraj : Trajectory) (anchorPoint : Point)
    (platoonN : ℕ) (platoonHeight waveSpeed : ℚ) (extent : Extent)
    (experimentId : ℕ) : AppState :=
  let tRef := anchorPoint.x
  let sorted := (activeNeighbors s.trajectories tRef).mergeSort
    fun a b => decide (a.2 ≤ b.2)
  let anchorIndex := sorted.findIdx? fun item => item.1.id = anchorTraj.id
  match anchorIndex with
  | none => s
  | some idx =>
    if sorted.length < 2 then s
    else
      let platoon := ((sorted.drop idx).take platoonN).map Prod.fst
      match platoon with
      | [] => s
      | first :: restP =>
        let lastT := (first :: restP).getLast (by simp)
        let startIntercept := anchorPoint.y - waveSpeed * anchorPoint.x
        let out := platoonLoop s.trajectories first lastT waveSpeed platoonHeight
          extent experimentId anchorPoint 0 startIntercept
        { s with results := s.results ++ out.1, visuals := s.visuals ++ out.2 }

/-! ## Raster trajectory extractor (src/services/imageProcessor.ts) -/

/-- Decoded raster pixel buffer: RGBA bytes addressed as in the source,
`data[(y * width + x) * 4 + channel]`. -/
structure ImageBuf where
  width : ℕ
  height : ℕ
  data : ℕ → ℕ

/-- Color distance of the pixel starting at byte index `base` from the
pure-white background reference (the `diff` of binarizeData). -/
def whiteDiff (img : ImageBuf) (base : ℕ) : ℤ :=
  |(img.data base : ℤ) - 255| + |(img.data (base + 1) : ℤ) - 255| +
    |(img.data (base + 2) : ℤ) - 255|

/-- Strict binarization (binarizeData in the source): a pixel farther
than 30 from pure white becomes opaque black, everything else opaque
white.  The source rewrites the buffer in place; the embedding gives the
rewritten byte at each index. -/
def binarizeData (img : ImageBuf) (i : ℕ) : ℕ :=
  let base := 4 * (i / 4)
  if whiteDiff img base > 30 then
    if i % 4 = 3 then 255 else 0
  else 255

/-- Foreground test on the binarized buffer (the `isForeground` closure):
false out of bounds, otherwise the red byte is zero. -/
def isForegroundPx (img : ImageBuf) (x y : ℤ) : Bool :=
  if 0 ≤ x ∧ x < img.width ∧ 0 ≤ y ∧ y < img.height then
    binarizeData img (((y.toNat * img.width + x.toNat)) * 4) = 0
  else false

/-- Pixel to domain mapping shared by the extractor's `toWorld` and the
round-trip property, on rational pixel coordinates. -/
def toWorldCoord (extent : Extent) (width height px py : ℚ) : Point :=
  ⟨px / width * extent.temporal, (height - py) / height * extent.spatial⟩

/-- Domain to pixel mapping of the application (`toPixel`). -/
def toPixel (extent : Extent) (width height : ℚ) (p : Point) : Point :=
  ⟨p.x / extent.temporal * width, height - p.y / extent.spatial * height⟩

/-- Ordered candidate-offset neighborhood of the tracing loop (the
`searchSpace` array, in source order). -/
def searchSpace : List (ℤ × ℤ) :=
  [(0, 1), (0, -1),
   (1, 0), (1, 1), (1, -1), (1, 2), (1, -2), (1, 3), (1, -3),
   (1, 4), (1, -4), (1, 5), (1, -5),
   (2, 0), (2, 1), (2, -1), (2, 2), (2, -2),
   (2, 3), (2, -3), (2, 4), (2, -4),
   (3, 0), (3, 1), (3, -1)]

/-- Greedy path growth from one seed pixel (the inner `while` of
extractTrajectoriesFromCanvas): mark the current pixel visited, append
its domain coordinate, move to the first unvisited foreground neighbor.
Each iteration visits a fresh pixel, so `width * height + 1` fuel (the
caller's choice) always suffices; the fuel only mirrors that argument. -/
def traceFrom (img : ImageBuf) (extent : Extent) :
    ℕ → Finset ℤ → ℤ → ℤ → List Point → List Point × Finset ℤ
  | 0, visited, _, _, points => (points, visited)
  | fuel + 1, visited, currX, currY, points =>
    if currX < img.width ∧ currY < img.height ∧ 0 ≤ currY then
      if (currY * img.width + currX) ∈ visited then (points, visited)
      else
        let visited2 := insert (currY * img.width + currX) visited
        let points2 := points ++
          [toWorldCoord extent img.width img.height currX currY]
        match searchSpace.findSome? (fun sp =>
          let nx := currX + sp.1
          let ny := currY + sp.2
          if nx < img.width ∧ 0 ≤ ny ∧ ny < img.height ∧
              (ny * img.width + nx) ∉ visited2 ∧ isForegroundPx img nx ny then
            some (nx, ny)
          else none) with
        | some nxt => traceFrom img extent fuel visited2 nxt.1 nxt.2 points2
        | none => (points2, visited2)
    else (points, visited)

/-- Full extraction scan (extractTrajectoriesFromCanvas): binarize, then
scan columns left to right (column step 1) and rows top to bottom,
growing a path from every unvisited foreground pixel; paths longer than
5 points are kept and numbered from 1. -/
def extractTrajectoriesFromCanvas (img : ImageBuf) (extent : Extent) :
    List Trajectory :=
  let init : Finset ℤ × List Trajectory × ℕ := (∅, [], 1)
  let final := (List.range img.width).foldl
    (fun acc x =>
      (List.range img.height).foldl
        (fun acc2 y =>
          if ((y : ℤ) * img.width + (x : ℤ)) ∉ acc2.1 ∧
              isForegroundPx img (x : ℤ) (y : ℤ) then
            let t := traceFrom img extent (img.width * img.height + 1) acc2.1
              (x : ℤ) (y : ℤ) []
            if t.1.length > 5 then
              (t.2, acc2.2.1 ++ [⟨acc2.2.2, t.1⟩], acc2.2.2 + 1)
            else (t.2, acc2.2.1, acc2.2.2)
          else acc2)
        acc)
    init
  final.2.1

/-! ## Proof helpers and concrete sample data -/

/-- Cyclic shoelace accumulator: `cyc first prev rest` is the sum of
`cross` over the chain `prev :: rest` closed back to `first`.  Used to
reason about `shoelace` by structural induction. -/
def cyc (first : Point) : Point → List Point → ℚ
  | last, [] => cross last first
  | prev, q :: rest => cross prev q + cyc first q rest

/-- Sample trajectory: the diagonal from (0,0) to (10,10). -/
def sampleDiagTraj : Trajectory := ⟨1, [⟨0, 0⟩, ⟨10, 10⟩]⟩

/-- Sample state: one diagonal trajectory, first line anchor at (2,8). -/
def sampleLineState : AppState := ⟨[], [], [sampleDiagTraj], [⟨2, 8⟩]⟩

/-- Sample state with a nearly vertical first line anchor, for the
negligible-time-span guard. -/
def sampleSteepLineState : AppState := ⟨[], [], [sampleDiagTraj], [⟨5, 0⟩]⟩

/-- Sample state: one diagonal trajectory and three polygon corners of
the axis-aligned rectangle `[0,4] x [0,3]`. -/
def samplePolyState : AppState := ⟨[], [], [⟨1, [⟨0, 0⟩, ⟨4, 3⟩]⟩], [⟨0, 0⟩, ⟨4, 0⟩, ⟨4, 3⟩]⟩

/-- Sample vertical trajectory at time 5 spanning positions 0..200. -/
def sampleVertTraj1 : Trajectory := ⟨1, [⟨5, 0⟩, ⟨5, 200⟩]⟩

/-- Sample vertical trajectory at time 6 spanning positions 0..200. -/
def sampleVertTraj2 : Trajectory := ⟨2, [⟨6, 0⟩, ⟨6, 200⟩]⟩

/-- Sample state owning only the first vertical trajectory. -/
def sampleSingleState : AppState := ⟨[], [], [sampleVertTraj1], []⟩

/-- Uniformly white 2x2 RGBA buffer. -/
def whiteImg : ImageBuf := ⟨2, 2, fun _ => 255⟩

/-! ## Shoelace-sum lemmas -/

lemma cross_antisymm (p q : Point) : cross p q = -cross q p := by
  unfold cross; ring

lemma zip_append_cyc (first : Point) :
    ∀ (rest : List Point) (prev : Point),
      (((prev :: rest).zip (rest ++ [first])).map fun e => cross e.1 e.2).sum =
        cyc first prev rest := by
  intro rest
  induction rest with
  | nil => intro prev; simp [cyc]
  | cons q rest ih =>
    intro prev
    simp only [List.cons_append, List.zip_cons_cons, List.map_cons, List.sum_cons, cyc]
    rw [ih]

lemma shoelace_cons (p : Point) (ps : List Point) : shoelace (p :: ps) = cyc p p ps := by
  unfold shoelace
  have hrot : (p :: ps).rotate 1 = ps ++ [p] := by
    rw [List.rotate_cons_succ, List.rotate_zero]
  rw [hrot]
  exact zip_append_cyc p ps p

lemma cyc_append (z a : Point) :
    ∀ (rest : List Point) (b : Point),
      cyc a b (rest ++ [z]) = cyc z b rest + cross z a := by
  intro rest
  induction rest with
  | nil => intro b; simp [cyc]
  | cons q rest ih =>
    intro b
    show cross b q + cyc a q (rest ++ [z]) = (cross b q + cyc z q rest) + cross z a
    rw [ih, add_assoc]

lemma cyc_reverse : ∀ (rest : List Point) (a b : Point),
    cyc a b rest.reverse = -cyc b a rest := by
  intro rest
  induction rest with
  | nil => intro a b; simp [cyc, cross_antisymm b a]
  | cons q rest ih =>
    intro a b
    simp only [List.reverse_cons, cyc]
    rw [cyc_append, ih, cross_antisymm q a]
    ring

lemma shoelace_rotate_one (l : List Point) : shoelace (l.rotate 1) = shoelace l := by
  match l with
  | [] => simp [shoelace]
  | [p] =>
    have : ([p] : List Point).rotate 1 = [p] := by
      rw [List.rotate_cons_succ, List.rotate_zero]; simp
    rw [this]
  | p :: q :: rest =>
    have hrot : (p :: q :: rest).rotate 1 = q :: (rest ++ [p]) := by
      rw [List.rotate_cons_succ, List.rotate_zero]; simp
    rw [hrot, shoelace_cons, shoelace_cons]
    show cyc q q (rest ++ [p]) = cyc p p (q :: rest)
    rw [cyc_append]
    simp only [cyc]
    ring

lemma shoelace_rotate (l : List Point) (n : ℕ) : shoelace (l.rotate n) = shoelace l := by
  induction n with
  | zero => rw [List.rotate_zero]
  | succ n ih => rw [← List.rotate_rotate, shoelace_rotate_one, ih]

lemma shoelace_reverse (l : List Point) : shoelace l.reverse = -shoelace l := by
  match l with
  | [] => simp [shoelace]
  | p :: ps =>
    have h1 : (p :: ps).reverse = ps.reverse ++ [p] := by simp
    have h2 : (p :: ps.reverse).rotate 1 = ps.reverse ++ [p] := by
      rw [List.rotate_cons_succ, List.rotate_zero]
    rw [h1, ← h2, shoelace_rotate_one, shoelace_cons, shoelace_cons, cyc_reverse]

/-- C8: calculatePolygonArea is invariant under reversing the vertex
list and under every cyclic rotation of it, and is always
nonnegative. -/
theorem polygonArea_invariance (polygon : List Point) :
    calculatePolygonArea polygon.reverse = calculatePolygonArea polygon ∧
    (∀ n, calculatePolygonArea (polygon.rotate n) = calculatePolygonArea polygon) ∧
    0 ≤ calculatePolygonArea polygon := by
  refine ⟨?_, fun n => ?_, ?_⟩
  · unfold calculatePolygonArea
    rw [shoelace_reverse, abs_neg]
  · unfold calculatePolygonArea
    rw [shoelace_rotate]
  · unfold calculatePolygonArea
    positivity

/-- C7: getLineIntersection returns none exactly when the cross-product
denominator vanishes or one of the intersection parameters leaves
`[0, 1]`; every returned point is the parametric point of both segments
for parameters inside `[0, 1]`. -/
theorem getLineIntersection_spec (p1 p2 p3 p4 : Point) :
    (getLineIntersection p1 p2 p3 p4 = none ↔
      interDenom p1 p2 p3 p4 = 0 ∨
        ¬(0 ≤ interNumA p1 p2 p3 p4 / interDenom p1 p2 p3 p4 ∧
          interNumA p1 p2 p3 p4 / interDenom p1 p2 p3 p4 ≤ 1 ∧
          0 ≤ interNumB p1 p2 p3 p4 / interDenom p1 p2 p3 p4 ∧
          interNumB p1 p2 p3 p4 / interDenom p1 p2 p3 p4 ≤ 1)) ∧
    (∀ q, getLineIntersection p1 p2 p3 p4 = some q →
      ∃ ua ub, 0 ≤ ua ∧ ua ≤ 1 ∧ 0 ≤ ub ∧ ub ≤ 1 ∧
        q.x = p1.x + ua * (p2.x - p1.x) ∧ q.y = p1.y + ua * (p2.y - p1.y) ∧
        q.x = p3.x + ub * (p4.x - p3.x) ∧ q.y = p3.y + ub * (p4.y - p3.y)) := by
  constructor
  · simp only [getLineIntersection]
    split_ifs with hd hb
    · simp [hd]
    · simp [hd, hb]
    · simp [hd, hb]
  · intro q hq
    simp only [getLineIntersection] at hq
    split_ifs at hq with hd hb
    · obtain rfl := (Option.some.inj hq).symm
      refine ⟨interNumA p1 p2 p3 p4 / interDenom p1 p2 p3 p4,
        interNumB p1 p2 p3 p4 / interDenom p1 p2 p3 p4,
        hb.1, hb.2.1, hb.2.2.1, hb.2.2.2, rfl, rfl, ?_, ?_⟩
      · show p1.x + interNumA p1 p2 p3 p4 / interDenom p1 p2 p3 p4 * (p2.x - p1.x) =
          p3.x + interNumB p1 p2 p3 p4 / interDenom p1 p2 p3 p4 * (p4.x - p3.x)
        field_simp [hd]
        unfold interDenom interNumA interNumB
        ring
      · show p1.y + interNumA p1 p2 p3 p4 / interDenom p1 p2 p3 p4 * (p2.y - p1.y) =
          p3.y + interNumB p1 p2 p3 p4 / interDenom p1 p2 p3 p4 * (p4.y - p3.y)
        field_simp [hd]
        unfold interDenom interNumA interNumB
        ring

/-- Closed instance of getLineIntersection_spec: the diagonal from
(0,0) to (10,10) meets the segment (2,8)-(8,2) at (5,5), which lies on
both segments. -/
theorem getLineIntersection_spec_witness :
    ∃ ua ub, 0 ≤ ua ∧ ua ≤ 1 ∧ 0 ≤ ub ∧ ub ≤ 1 ∧
      (⟨5, 5⟩ : Point).x = (⟨2, 8⟩ : Point).x + ua * ((⟨8, 2⟩ : Point).x - (⟨2, 8⟩ : Point).x) ∧
      (⟨5, 5⟩ : Point).y = (⟨2, 8⟩ : Point).y + ua * ((⟨8, 2⟩ : Point).y - (⟨2, 8⟩ : Point).y) ∧
      (⟨5, 5⟩ : Point).x = (⟨0, 0⟩ : Point).x + ub * ((⟨10, 10⟩ : Point).x - (⟨0, 0⟩ : Point).x) ∧
      (⟨5, 5⟩ : Point).y = (⟨0, 0⟩ : Point).y + ub * ((⟨10, 10⟩ : Point).y - (⟨0, 0⟩ : Point).y) :=
  (getLineIntersection_spec ⟨2, 8⟩ ⟨8, 2⟩ ⟨0, 0⟩ ⟨10, 10⟩).2 ⟨5, 5⟩
    (by with_unfolding_all rfl)

/-- C9: on every extent with positive spans and positive image
dimensions, the application's toPixel followed by the extractor's
toWorld mapping is the identity on domain points (exactly, in rational
arithmetic). -/
theorem pixel_roundTrip (extent : Extent) (width height : ℚ) (p : Point)
    (ht : 0 < extent.temporal) (hs : 0 < extent.spatial)
    (hw : 0 < width) (hh : 0 < height) :
    toWorldCoord extent width height (toPixel extent width height p).x
      (toPixel extent width height p).y = p := by
  obtain ⟨x, y⟩ := p
  unfold toWorldCoord toPixel
  simp only [Point.mk.injEq]
  constructor <;> field_simp <;> ring

/-- Closed instance of pixel_roundTrip on a 800x600 image spanning
15 min x 640 m. -/
theorem pixel_roundTrip_witness :
    (0 : ℚ) < (⟨640, 15⟩ : Extent).temporal ∧
    (0 : ℚ) < (⟨640, 15⟩ : Extent).spatial ∧
    toWorldCoord ⟨640, 15⟩ 800 600
      (toPixel ⟨640, 15⟩ 800 600 ⟨3, 100⟩).x
      (toPixel ⟨640, 15⟩ 800 600 ⟨3, 100⟩).y = ⟨3, 100⟩ :=
  ⟨by decide, by decide,
    pixel_roundTrip ⟨640, 15⟩ 800 600 ⟨3, 100⟩ (by decide) (by decide)
      (by decide) (by decide)⟩

/-! ## Loop-detector window area (C10) -/

lemma loopPoly_area (waveSpeed y0 t interval h : ℚ)
    (hi : 0 < interval) (hh : 0 < h) :
    calculatePolygonArea (loopPoly waveSpeed y0 t interval h) = interval * h := by
  have hs : shoelace (loopPoly waveSpeed y0 t interval h) = 2 * (interval * h) := by
    simp only [loopPoly, shoelace_cons, cyc, cross]
    ring
  unfold calculatePolygonArea
  rw [hs, abs_of_pos (by positivity)]
  ring

/-- C10: every loop-detector window parallelogram has shoelace area
exactly `interval * h`, independently of the wave speed, the anchor
position and the window start; consequently every result appended by one
loop-detector request carries that same area. -/
theorem loopDetector_window_area (waveSpeed y0 t interval h : ℚ)
    (s : AppState) (wp : Point) (eid : ℕ) (endT : ℚ) (r : AnalysisResult)
    (hi : 0 < interval) (hh : 0 < h) :
    calculatePolygonArea (loopPoly waveSpeed y0 t interval h) = interval * h ∧
    (r ∈ (handleLoopDetectorClick s wp eid waveSpeed interval h endT).results →
      r ∈ s.results ∨ r.area = interval * h) := by
  refine ⟨loopPoly_area _ _ _ _ _ hi hh, fun hr => ?_⟩
  simp only [handleLoopDetectorClick, List.mem_append] at hr
  rcases hr with hr | hr
  · exact Or.inl hr
  · right
    obtain ⟨t2, _, rfl⟩ := List.mem_map.mp hr
    simp only [mkEdieResult]
    exact loopPoly_area _ _ _ _ _ hi hh

/-- Closed instance of loopDetector_window_area: a half-minute window
with a 2 m aperture has area 1, whatever the wave-speed correction. -/
theorem loopDetector_window_area_witness :
    calculatePolygonArea (loopPoly (-283) 100 3 (1 / 2) 2) = 1 / 2 * 2 ∧
    ((⟨AnalysisMode.LOOP_DETECTOR, 0, 0, 0, 1, 0, 0, none, none, 5⟩ : AnalysisResult) ∈
        (handleLoopDetectorClick sampleSingleState ⟨3, 100⟩ 5 (-283) (1 / 2) 2 15).results →
      (⟨AnalysisMode.LOOP_DETECTOR, 0, 0, 0, 1, 0, 0, none, none, 5⟩ : AnalysisResult) ∈
        sampleSingleState.results ∨
        (⟨AnalysisMode.LOOP_DETECTOR, 0, 0, 0, 1, 0, 0, none, none, 5⟩ :
          AnalysisResult).area = 1 / 2 * 2) :=
  loopDetector_window_area (-283) 100 3 (1 / 2) 2 sampleSingleState ⟨3, 100⟩ 5 15
    ⟨AnalysisMode.LOOP_DETECTOR, 0, 0, 0, 1, 0, 0, none, none, 5⟩
    (by norm_num) (by norm_num)

/-! ## Line mode (C1) -/

lemma length_filterMap_eq_length_filter {α β : Type} (g : α → Option β) :
    ∀ xs : List α, (xs.filterMap g).length = (xs.filter fun e => (g e).isSome).length := by
  intro xs
  induction xs with
  | nil => rfl
  | cons x xs ih =>
    cases hgx : g x <;>
      simp [List.filterMap_cons, List.filter_cons, hgx, ih]

lemma lineIntersections_length (trajectories : List Trajectory) (p1 p2 : Point) :
    (lineIntersections trajectories p1 p2).length = countCrossings trajectories p1 p2 := by
  unfold lineIntersections countCrossings
  rw [List.length_flatMap]
  congr 1
  exact List.map_congr_left fun t _ => length_filterMap_eq_length_filter _ _

/-- C1 counterexample to the claim that Line mode always reports
flow 0 and density 0: one diagonal trajectory crossed once by the
line from (2,8) to (8,2) yields flow 1/6 and density 1/6. -/
theorem lineClick_flow_nonzero_cex :
    (handleLineClick sampleLineState ⟨8, 2⟩ 0).results =
      [⟨AnalysisMode.LINE, 1 / 6, 1 / 6, 0, 0, 0, 0, some 1, some (-1), 0⟩] ∧
    ((1 : ℚ) / 6 ≠ 0) := by
  constructor
  · with_unfolding_all rfl
  · norm_num

/-- C1 (amended): completing a line draws one result whose count is the
number of trajectory-segment crossings and whose waveSpeed is the
line's slope; speed, area, ttd and ttt are 0, but flow and density are
the relative quantities `count / Δt` (0 when `Δt ≤ 0.01`) and
`count / Δx` (0 when `Δx ≤ 1`), not always 0; the click buffer is
cleared. -/
theorem handleLineClick_spec (s : AppState) (p1 p2 : Point) (eid : ℕ)
    (hdp : s.drawingPoints = [p1]) :
    ∃ r, (handleLineClick s p2 eid).results = s.results ++ [r] ∧
      r.count = some (countCrossings s.trajectories p1 p2) ∧
      r.waveSpeed = some ((p2.y - p1.y) / (p2.x - p1.x)) ∧
      r.flow = (if |p2.x - p1.x| > 1 / 100 then
        (countCrossings s.trajectories p1 p2 : ℚ) / |p2.x - p1.x| else 0) ∧
      r.density = (if |p2.y - p1.y| > 1 then
        (countCrossings s.trajectories p1 p2 : ℚ) / |p2.y - p1.y| else 0) ∧
      r.speed = 0 ∧ r.area = 0 ∧ r.ttd = 0 ∧ r.ttt = 0 ∧
      (handleLineClick s p2 eid).drawingPoints = [] := by
  refine ⟨⟨AnalysisMode.LINE,
    (if |p2.x - p1.x| > 1 / 100 then
      (countCrossings s.trajectories p1 p2 : ℚ) / |p2.x - p1.x| else 0),
    (if |p2.y - p1.y| > 1 then
      (countCrossings s.trajectories p1 p2 : ℚ) / |p2.y - p1.y| else 0),
    0, 0, 0, 0, some (countCrossings s.trajectories p1 p2),
    some ((p2.y - p1.y) / (p2.x - p1.x)), eid⟩,
    ?_, rfl, rfl, rfl, rfl, rfl, rfl, rfl, rfl, ?_⟩ <;>
    simp [handleLineClick, hdp, lineIntersections_length]

/-- Closed instance of handleLineClick_spec at the sample line state. -/
theorem handleLineClick_spec_witness :
    ∃ r, (handleLineClick sampleLineState ⟨8, 2⟩ 0).results =
        sampleLineState.results ++ [r] ∧
      r.count = some (countCrossings sampleLineState.trajectories ⟨2, 8⟩ ⟨8, 2⟩) ∧
      r.waveSpeed = some (((⟨8, 2⟩ : Point).y - (⟨2, 8⟩ : Point).y) /
        ((⟨8, 2⟩ : Point).x - (⟨2, 8⟩ : Point).x)) ∧
      r.flow = (if |(⟨8, 2⟩ : Point).x - (⟨2, 8⟩ : Point).x| > 1 / 100 then
        (countCrossings sampleLineState.trajectories ⟨2, 8⟩ ⟨8, 2⟩ : ℚ) /
          |(⟨8, 2⟩ : Point).x - (⟨2, 8⟩ : Point).x| else 0) ∧
      r.density = (if |(⟨8, 2⟩ : Point).y - (⟨2, 8⟩ : Point).y| > 1 then
        (countCrossings sampleLineState.trajectories ⟨2, 8⟩ ⟨8, 2⟩ : ℚ) /
          |(⟨8, 2⟩ : Point).y - (⟨2, 8⟩ : Point).y| else 0) ∧
      r.speed = 0 ∧ r.area = 0 ∧ r.ttd = 0 ∧ r.ttt = 0 ∧
      (handleLineClick sampleLineState ⟨8, 2⟩ 0).drawingPoints = [] :=
  handleLineClick_spec sampleLineState ⟨2, 8⟩ ⟨8, 2⟩ 0 (by with_unfolding_all rfl)

/-! ## Polygon mode (C2) -/

lemma clipped_foldl (polygon : List Point) :
    ∀ (xs : List (Point × Point)) (acc : ℚ × ℚ),
      xs.foldl (fun acc2 e =>
          let m := getClippedSegmentMetrics e.1 e.2 polygon
          (acc2.1 + m.1, acc2.2 + m.2)) acc =
        (acc.1 + (xs.map fun e => (getClippedSegmentMetrics e.1 e.2 polygon).1).sum,
          acc.2 + (xs.map fun e => (getClippedSegmentMetrics e.1 e.2 polygon).2).sum) := by
  intro xs
  induction xs with
  | nil => intro acc; simp
  | cons e xs ih =>
    intro acc
    rw [List.foldl_cons, ih]
    simp only [List.map_cons, List.sum_cons, Prod.mk.injEq]
    constructor <;> ring

lemma accumulateMetrics_eq (trajectories : List Trajectory) (polygon : List Point) :
    accumulateMetrics trajectories polygon =
      (sumTTD trajectories polygon, sumTTT trajectories polygon) := by
  unfold accumulateMetrics sumTTD sumTTT
  suffices H : ∀ (trs : List Trajectory) (acc : ℚ × ℚ),
      trs.foldl (fun acc t =>
          (segPairs t).foldl (fun acc2 e =>
            let m := getClippedSegmentMetrics e.1 e.2 polygon
            (acc2.1 + m.1, acc2.2 + m.2)) acc) acc =
        (acc.1 + (trs.map fun t =>
          ((segPairs t).map fun e => (getClippedSegmentMetrics e.1 e.2 polygon).1).sum).sum,
          acc.2 + (trs.map fun t =>
          ((segPairs t).map fun e => (getClippedSegmentMetrics e.1 e.2 polygon).2).sum).sum) by
    simpa using H trajectories (0, 0)
  intro trs
  induction trs with
  | nil => intro acc; simp
  | cons t ts ih =>
    intro acc
    rw [List.foldl_cons, clipped_foldl, ih]
    simp only [List.map_cons, List.sum_cons, Prod.mk.injEq]
    constructor <;> ring

/-- C2: completing a polygon appends exactly one result whose area is the
shoelace area of the four clicked corners, whose ttd/ttt are the summed
clipped metrics over every trajectory segment, with Edie's ratios under
positive area and positive ttt, and clears the click buffer. -/
theorem handlePolygonClick_spec (s : AppState) (a b c p4 : Point) (eid : ℕ)
    (hdp : s.drawingPoints = [a, b, c]) :
    ∃ r, (handlePolygonClick s p4 eid).results = s.results ++ [r] ∧
      r.area = calculatePolygonArea [a, b, c, p4] ∧
      r.ttd = sumTTD s.trajectories [a, b, c, p4] ∧
      r.ttt = sumTTT s.trajectories [a, b, c, p4] ∧
      (r.area > 0 → r.flow = r.ttd / r.area) ∧
      (r.area > 0 → r.density = r.ttt / r.area) ∧
      (r.ttt > 0 → r.speed = r.ttd / r.ttt) ∧
      (handlePolygonClick s p4 eid).drawingPoints = [] := by
  refine ⟨mkEdieResult AnalysisMode.POLYGON (calculatePolygonArea [a, b, c, p4])
      (sumTTD s.trajectories [a, b, c, p4]) (sumTTT s.trajectories [a, b, c, p4]) eid,
    ?_, rfl, rfl, rfl, fun hpos => ?_, fun hpos => ?_, fun hpos => ?_, ?_⟩
  · simp [handlePolygonClick, hdp, accumulateMetrics_eq]
  · have h2 : calculatePolygonArea [a, b, c, p4] > 0 := hpos
    simp only [mkEdieResult]
    rw [if_pos h2]
  · have h2 : calculatePolygonArea [a, b, c, p4] > 0 := hpos
    simp only [mkEdieResult]
    rw [if_pos h2]
  · have h2 : sumTTT s.trajectories [a, b, c, p4] > 0 := hpos
    simp only [mkEdieResult]
    rw [if_pos h2]
  · simp [handlePolygonClick, hdp]

/-- Closed instance of handlePolygonClick_spec at the sample polygon
state. -/
theorem handlePolygonClick_spec_witness :
    ∃ r, (handlePolygonClick samplePolyState ⟨0, 3⟩ 7).results =
        samplePolyState.results ++ [r] ∧
      r.area = calculatePolygonArea [⟨0, 0⟩, ⟨4, 0⟩, ⟨4, 3⟩, ⟨0, 3⟩] ∧
      r.ttd = sumTTD samplePolyState.trajectories [⟨0, 0⟩, ⟨4, 0⟩, ⟨4, 3⟩, ⟨0, 3⟩] ∧
      r.ttt = sumTTT samplePolyState.trajectories [⟨0, 0⟩, ⟨4, 0⟩, ⟨4, 3⟩, ⟨0, 3⟩] ∧
      (r.area > 0 → r.flow = r.ttd / r.area) ∧
      (r.area > 0 → r.density = r.ttt / r.area) ∧
      (r.ttt > 0 → r.speed = r.ttd / r.ttt) ∧
      (handlePolygonClick samplePolyState ⟨0, 3⟩ 7).drawingPoints = [] :=
  handlePolygonClick_spec samplePolyState ⟨0, 0⟩ ⟨4, 0⟩ ⟨4, 3⟩ ⟨0, 3⟩ 7
    (by with_unfolding_all rfl)

/-! ## Degenerate-denominator guards (C3) -/

/-- C3: every Edie-mode result built by the Polygon, Loop-Detector and
Platoon branches reports flow and density 0 when the region area is 0
and speed 0 when the accumulated ttt is 0, and the Line branch reports
flow 0 when the time span is at most 0.01 min and density 0 when the
position span is at most 1 m; no division by a vanishing denominator is
ever performed, so every reported quantity is a well-defined rational. -/
theorem analysisResult_guards :
    (∀ (mode : AnalysisMode) (area ttd ttt : ℚ) (eid : ℕ),
      (area = 0 → (mkEdieResult mode area ttd ttt eid).flow = 0 ∧
        (mkEdieResult mode area ttd ttt eid).density = 0) ∧
      (ttt = 0 → (mkEdieResult mode area ttd ttt eid).speed = 0)) ∧
    (∀ (s : AppState) (p1 p2 : Point) (eid : ℕ), s.drawingPoints = [p1] →
      ∃ r, (handleLineClick s p2 eid).results = s.results ++ [r] ∧
        (|p2.x - p1.x| ≤ 1 / 100 → r.flow = 0) ∧
        (|p2.y - p1.y| ≤ 1 → r.density = 0) ∧ r.speed = 0) := by
  constructor
  · intro mode area ttd ttt eid
    refine ⟨fun h0 => ?_, fun h0 => ?_⟩
    · subst h0; simp [mkEdieResult]
    · subst h0; simp [mkEdieResult]
  · intro s p1 p2 eid hdp
    refine ⟨⟨AnalysisMode.LINE,
      (if |p2.x - p1.x| > 1 / 100 then
        ((lineIntersections s.trajectories p1 p2).length : ℚ) / |p2.x - p1.x| else 0),
      (if |p2.y - p1.y| > 1 then
        ((lineIntersections s.trajectories p1 p2).length : ℚ) / |p2.y - p1.y| else 0),
      0, 0, 0, 0, some (lineIntersections s.trajectories p1 p2).length,
      some ((p2.y - p1.y) / (p2.x - p1.x)), eid⟩, ?_, fun hle => ?_, fun hle => ?_, rfl⟩
    · simp [handleLineClick, hdp]
    · show (if |p2.x - p1.x| > 1 / 100 then
        ((lineIntersections s.trajectories p1 p2).length : ℚ) / |p2.x - p1.x| else 0) = 0
      rw [if_neg (not_lt.mpr hle)]
    · show (if |p2.y - p1.y| > 1 then
        ((lineIntersections s.trajectories p1 p2).length : ℚ) / |p2.y - p1.y| else 0) = 0
      rw [if_neg (not_lt.mpr hle)]

/-- Closed instance of analysisResult_guards: a zero-area zero-ttt Edie
record and a nearly vertical line (time span 1/1000 min) both fall back
to zeros. -/
theorem analysisResult_guards_witness :
    ((mkEdieResult AnalysisMode.POLYGON 0 3 0 9).flow = 0 ∧
      (mkEdieResult AnalysisMode.POLYGON 0 3 0 9).density = 0) ∧
    (mkEdieResult AnalysisMode.POLYGON 0 3 0 9).speed = 0 ∧
    (∃ r, (handleLineClick sampleSteepLineState ⟨5 + 1 / 1000, 300⟩ 2).results =
        sampleSteepLineState.results ++ [r] ∧
      (|(⟨5 + 1 / 1000, 300⟩ : Point).x - (⟨5, 0⟩ : Point).x| ≤ 1 / 100 → r.flow = 0) ∧
      (|(⟨5 + 1 / 1000, 300⟩ : Point).y - (⟨5, 0⟩ : Point).y| ≤ 1 → r.density = 0) ∧
      r.speed = 0) :=
  ⟨(analysisResult_guards.1 AnalysisMode.POLYGON 0 3 0 9).1 rfl,
    (analysisResult_guards.1 AnalysisMode.POLYGON 0 3 0 9).2 rfl,
    analysisResult_guards.2 sampleSteepLineState ⟨5, 0⟩ ⟨5 + 1 / 1000, 300⟩ 2
      (by with_unfolding_all rfl)⟩

/-! ## Platoon insufficiency (C4) -/

/-- C4: when the anchor trajectory is not among the trajectories active
at the anchor time, or fewer than two trajectories are active there, the
Platoon branch leaves the whole state (results, visuals, trajectories
and click buffer) exactly as it was. -/
theorem platoonBranch_insufficiency (s : AppState) (anchorTraj : Trajectory)
    (anchorPoint : Point) (platoonN : ℕ) (platoonHeight waveSpeed : ℚ)
    (extent : Extent) (eid : ℕ)
    (hins : (∀ item ∈ activeNeighbors s.trajectories anchorPoint.x,
        item.1.id ≠ anchorTraj.id) ∨
      (activeNeighbors s.trajectories anchorPoint.x).length < 2) :
    platoonBranch s anchorTraj anchorPoint platoonN platoonHeight waveSpeed
      extent eid = s := by
  simp only [platoonBranch]
  rcases hins with hnone | hlen
  · have hidx : (((activeNeighbors s.trajectories anchorPoint.x).mergeSort
        fun a b => decide (a.2 ≤ b.2)).findIdx?
          fun item => item.1.id = anchorTraj.id) = none := by
      rw [List.findIdx?_eq_none_iff]
      intro x hx
      have hmem : x ∈ activeNeighbors s.trajectories anchorPoint.x :=
        (List.mergeSort_perm _ _).mem_iff.mp hx
      simp [hnone x hmem]
    rw [hidx]
  · have hlt : (((activeNeighbors s.trajectories anchorPoint.x).mergeSort
        fun a b => decide (a.2 ≤ b.2)).length) < 2 := by
      rw [List.length_mergeSort]
      exact hlen
    cases hidx : (((activeNeighbors s.trajectories anchorPoint.x).mergeSort
        fun a b => decide (a.2 ≤ b.2)).findIdx?
          fun item => item.1.id = anchorTraj.id) with
    | none => rfl
    | some idx =>
      dsimp only
      rw [if_pos hlt]

/-- Closed instance of platoonBranch_insufficiency: with a single active
trajectory the platoon request changes nothing. -/
theorem platoonBranch_insufficiency_witness :
    platoonBranch sampleSingleState sampleVertTraj1 ⟨5, 100⟩ 5 30 (-283) ⟨640, 15⟩ 3 =
      sampleSingleState :=
  platoonBranch_insufficiency sampleSingleState sampleVertTraj1 ⟨5, 100⟩ 5 30 (-283)
    ⟨640, 15⟩ 3
    (Or.inr (by
      rw [show (activeNeighbors sampleSingleState.trajectories
        (⟨5, 100⟩ : Point).x).length = 1 from by with_unfolding_all rfl]
      omega))

/-! ## Platoon loop termination and step cap (C5) -/

lemma platoonLoop_eq_aux (trajectories : List Trajectory) (first last : Trajectory)
    (waveSpeed h : ℚ) (extent : Extent) (eid : ℕ) (anchor : Point) :
    ∀ (n sc : ℕ), sc + n = 100 → ∀ ci,
      platoonLoop trajectories first last waveSpeed h extent eid anchor sc ci =
        platoonLoopAux trajectories first last waveSpeed h extent eid anchor
          (n + 1) sc ci := by
  intro n
  induction n with
  | zero =>
    intro sc hsc ci
    have hsc2 : sc = 100 := by omega
    subst hsc2
    rw [platoonLoop]
    simp only [platoonLoopAux]
    by_cases h1 : waveSpeed * 0 + ci > extent.spatial ∧
        waveSpeed * extent.temporal + ci > extent.spatial
    · rw [if_pos h1, if_pos h1]
    · rw [if_neg h1, if_neg h1]
      cases hg1 : getTrajectoryIntersectionWithLine first waveSpeed ci <;>
        cases hg2 : getTrajectoryIntersectionWithLine last waveSpeed ci <;>
        cases hg3 : getTrajectoryIntersectionWithLine last waveSpeed (ci + h) <;>
        cases hg4 : getTrajectoryIntersectionWithLine first waveSpeed (ci + h) <;>
        rfl
  | succ n ih =>
    intro sc hsc ci
    have hcap : ¬(sc + 1 > 100) := by omega
    rw [platoonLoop]
    conv_rhs => rw [platoonLoopAux]
    by_cases h1 : waveSpeed * 0 + ci > extent.spatial ∧
        waveSpeed * extent.temporal + ci > extent.spatial
    · rw [if_pos h1, if_pos h1]
    · rw [if_neg h1, if_neg h1]
      cases hg1 : getTrajectoryIntersectionWithLine first waveSpeed ci <;>
        cases hg2 : getTrajectoryIntersectionWithLine last waveSpeed ci <;>
        cases hg3 : getTrajectoryIntersectionWithLine last waveSpeed (ci + h) <;>
        cases hg4 : getTrajectoryIntersectionWithLine first waveSpeed (ci + h) <;>
        (dsimp only; try rfl)
      rw [dif_neg hcap, if_neg hcap, ih (sc + 1) (by omega) (ci + h)]

lemma platoonLoopAux_length_le (trajectories : List Trajectory)
    (first last : Trajectory) (waveSpeed h : ℚ) (extent : Extent) (eid : ℕ)
    (anchor : Point) :
    ∀ (fuel sc : ℕ) (ci : ℚ),
      (platoonLoopAux trajectories first last waveSpeed h extent eid anchor
        fuel sc ci).1.length ≤ fuel := by
  intro fuel
  induction fuel with
  | zero => intro sc ci; simp [platoonLoopAux]
  | succ fuel ih =>
    intro sc ci
    simp only [platoonLoopAux]
    by_cases h1 : waveSpeed * 0 + ci > extent.spatial ∧
        waveSpeed * extent.temporal + ci > extent.spatial
    · rw [if_pos h1]; simp
    · rw [if_neg h1]
      cases hg1 : getTrajectoryIntersectionWithLine first waveSpeed ci <;>
        cases hg2 : getTrajectoryIntersectionWithLine last waveSpeed ci <;>
        cases hg3 : getTrajectoryIntersectionWithLine last waveSpeed (ci + h) <;>
        cases hg4 : getTrajectoryIntersectionWithLine first waveSpeed (ci + h) <;>
        dsimp only <;> try (simp; done)
      by_cases hcap : sc + 1 > 100
      · rw [if_pos hcap]; simp
      · rw [if_neg hcap]
        simpa using Nat.succ_le_succ (ih (sc + 1) (ci + h))

/-- C5 (amended): the platoon stepping loop is total and, started at
step count 0, produces at most 101 results before its own cap stops it:
the cap check `stepCount > 100` runs after the counter is incremented,
so a 101st iteration can execute; on hitting the cap the accumulated
results are returned, not an error (the codomain has no error case). -/
theorem platoonLoop_step_bound (trajectories : List Trajectory)
    (first last : Trajectory) (waveSpeed h : ℚ) (extent : Extent) (eid : ℕ)
    (anchor : Point) (ci : ℚ) :
    (platoonLoop trajectories first last waveSpeed h extent eid anchor
      0 ci).1.length ≤ 101 := by
  rw [platoonLoop_eq_aux trajectories first last waveSpeed h extent eid anchor
    100 0 rfl ci]
  exact platoonLoopAux_length_le trajectories first last waveSpeed h extent eid
    anchor 101 0 ci

/-- C5 counterexample to the 100-step reading of the cap: two tall
vertical trajectories inside a wide spatial extent make the loop run
its full 101 iterations, so "at most 100 steps" is exceeded by one. -/
theorem platoonLoop_cap_cex :
    (platoonLoop [sampleVertTraj1, sampleVertTraj2] sampleVertTraj1 sampleVertTraj2
        0 1 ⟨1000, 15⟩ 0 ⟨5, 0⟩ 0 0).1.length = 101 ∧
    ¬((platoonLoop [sampleVertTraj1, sampleVertTraj2] sampleVertTraj1 sampleVertTraj2
        0 1 ⟨1000, 15⟩ 0 ⟨5, 0⟩ 0 0).1.length ≤ 100) := by
  have h101 : (platoonLoop [sampleVertTraj1, sampleVertTraj2] sampleVertTraj1
      sampleVertTraj2 0 1 ⟨1000, 15⟩ 0 ⟨5, 0⟩ 0 0).1.length = 101 := by
    rw [platoonLoop_eq_aux [sampleVertTraj1, sampleVertTraj2] sampleVertTraj1
      sampleVertTraj2 0 1 ⟨1000, 15⟩ 0 ⟨5, 0⟩ 100 0 rfl 0]
    with_unfolding_all rfl
  exact ⟨h101, by omega⟩

/-! ## Extractor on background-only images (C6) -/

lemma foldl_fixed {α β : Type} (f : β → α → β) (h : ∀ b a, f b a = b) :
    ∀ (l : List α) (b : β), l.foldl f b = b := by
  intro l
  induction l with
  | nil => intro b; rfl
  | cons x xs ih => intro b; rw [List.foldl_cons, h, ih]

/-- C6: when every pixel of the buffer is within the white-background
tolerance (color distance at most 30), binarization leaves no foreground
pixel and the extraction scan returns the empty trajectory list; the
extractor is a total function, so no pixel buffer can make it fail. -/
theorem extract_background_empty (img : ImageBuf) (extent : Extent)
    (hbg : ∀ x y : ℕ, x < img.width → y < img.height →
      whiteDiff img ((y * img.width + x) * 4) ≤ 30) :
    extractTrajectoriesFromCanvas img extent = [] := by
  have hfg : ∀ (x y : ℤ), isForegroundPx img x y = false := by
    intro x y
    unfold isForegroundPx
    split_ifs with hin
    · obtain ⟨hx0, hxw, hy0, hyh⟩ := hin
      have hx : x.toNat < img.width := by omega
      have hy : y.toNat < img.height := by omega
      have hdiff := hbg x.toNat y.toNat hx hy
      unfold binarizeData
      have hbase : 4 * (((y.toNat * img.width + x.toNat) * 4) / 4) =
          (y.toNat * img.width + x.toNat) * 4 := by omega
      rw [hbase, if_neg (not_lt.mpr hdiff)]
      simp
    · rfl
  unfold extractTrajectoriesFromCanvas
  dsimp only
  have houter : (List.range img.width).foldl
      (fun acc x =>
        (List.range img.height).foldl
          (fun acc2 y =>
            if ((y : ℤ) * img.width + (x : ℤ)) ∉ acc2.1 ∧
                isForegroundPx img (x : ℤ) (y : ℤ) then
              let t := traceFrom img extent (img.width * img.height + 1) acc2.1
                (x : ℤ) (y : ℤ) []
              if t.1.length > 5 then
                (t.2, acc2.2.1 ++ [⟨acc2.2.2, t.1⟩], acc2.2.2 + 1)
              else (t.2, acc2.2.1, acc2.2.2)
            else acc2)
          acc)
      ((∅ : Finset ℤ), ([] : List Trajectory), 1) = (∅, [], 1) := by
    apply foldl_fixed
    intro b a
    apply foldl_fixed
    intro b2 a2
    rw [if_neg]
    intro hc
    rw [hfg] at hc
    exact absurd hc.2 (by simp)
  rw [houter]

/-- Closed instance of extract_background_empty: a uniformly white 2x2
image yields zero trajectories. -/
theorem extract_background_empty_witness :
    extractTrajectoriesFromCanvas whiteImg ⟨640, 15⟩ = [] :=
  extract_background_empty whiteImg ⟨640, 15⟩ (fun x y _ _ => by
    unfold whiteDiff whiteImg
    norm_num)

end TrajectoryExplorer
